import Mathlib

/-!
Verification of the metric-comparison engine, the stability poller and the
clip aligner of the race-for-the-price repository.

The comparison engine is embedded from the module in src/unnamed/part_000
(function buildProfileComparison and the PROFILE_METRICS registry).
JavaScript numbers are modelled as rationals; a missing/null value is
modelled as Option.none.  The embedding covers the documented domain where
profileData is index-aligned with the racers, so that vals[0] and vals[1]
denote present-or-null entries (never out of range).
-/

set_option maxRecDepth 100000

namespace Race

/-- Metric categories of the PROFILE_METRICS registry (src/unnamed/part_000). -/
inductive Category where
  | network | loading | memory | computation | rendering
  deriving DecidableEq, Repr

/-- The nine metric identifiers of PROFILE_METRICS, in registry order
(src/unnamed/part_000, lines 15-84). -/
inductive MetricKey where
  | networkTransferSize
  | networkRequestCount
  | domContentLoaded
  | domComplete
  | jsHeapUsedSize
  | scriptDuration
  | layoutDuration
  | recalcStyleDuration
  | taskDuration
  deriving DecidableEq, Repr

/-- Category of each metric, from the registry entries in src/unnamed/part_000. -/
def MetricKey.category : MetricKey → Category
  | .networkTransferSize => .network
  | .networkRequestCount => .network
  | .domContentLoaded => .loading
  | .domComplete => .loading
  | .jsHeapUsedSize => .memory
  | .scriptDuration => .computation
  | .layoutDuration => .rendering
  | .recalcStyleDuration => .rendering
  | .taskDuration => .computation

/-- Iteration order of Object.entries(PROFILE_METRICS): registry definition order. -/
def PROFILE_METRICS : List MetricKey :=
  [.networkTransferSize, .networkRequestCount, .domContentLoaded, .domComplete,
   .jsHeapUsedSize, .scriptDuration, .layoutDuration, .recalcStyleDuration,
   .taskDuration]

/-- A per-racer profile snapshot: each metric key maps to a number or null.
A whole-snapshot null (p null in profileData) is modelled as Option.none at
the profileData level. -/
abbrev Snapshot := MetricKey → Option ℚ

/-- One emitted comparison (the comp object of buildProfileComparison).
Display-only formatting (the formatted field) is out of scope. -/
structure Comparison where
  key : MetricKey
  category : Category
  values : List (Option ℚ)
  winner : Option String
  diff : Option ℚ
  diffPercent : Option ℚ
  deriving DecidableEq, Repr

/-- JS: const vals = profileData.map(p => p?.[key] ?? null). -/
def extractVals (profileData : List (Option Snapshot)) (key : MetricKey) :
    List (Option ℚ) :=
  profileData.map (fun p => p.bind (fun s => s key))

/-- The comp object as first initialised (winner/diff/diffPercent null). -/
def comparisonBase (key : MetricKey) (vals : List (Option ℚ)) : Comparison :=
  { key := key
    category := key.category
    values := vals
    winner := none
    diff := none
    diffPercent := none }

/-- Loop body of buildProfileComparison for one metric key
(src/unnamed/part_000, lines 110-141): skip when both leading values are
null, otherwise build the comparison; when both values are present and
unequal, the index with the smaller value (vals[0] <= vals[1] ? 0 : 1)
wins, diff is loser minus winner, and diffPercent is diff / winner * 100
when the winning value is strictly positive, else 0. -/
def compareMetric (racerNames : List String) (profileData : List (Option Snapshot))
    (key : MetricKey) : Option Comparison :=
  let vals := extractVals profileData key
  match vals.getD 0 none, vals.getD 1 none with
  | none, none => none
  | some a, some b =>
      if a = b then some (comparisonBase key vals)
      else
        some { comparisonBase key vals with
               winner := some (racerNames.getD (if a ≤ b then 0 else 1) "")
               diff := some ((if a ≤ b then b else a) - (if a ≤ b then a else b))
               diffPercent := some
                 (if 0 < (if a ≤ b then a else b) then
                    ((if a ≤ b then b else a) - (if a ≤ b then a else b))
                      / (if a ≤ b then a else b) * 100
                  else 0) }
  | _, _ => some (comparisonBase key vals)

/-- The wins object, with JS object semantics: an association list in key
insertion order, updated in place. -/
abbrev WinsObj := List (String × ℕ)

/-- Value of a key in a JS object (first matching entry; 0 when absent —
the code only ever reads keys it created). -/
def objGet : WinsObj → String → ℕ
  | [], _ => 0
  | (k', v) :: rest, k => if k' = k then v else objGet rest k

/-- Assignment obj[k] = v: overwrite the first matching entry or append. -/
def objSet : WinsObj → String → ℕ → WinsObj
  | [], k, v => [(k, v)]
  | (k', v') :: rest, k, v =>
      if k' = k then (k, v) :: rest else (k', v') :: objSet rest k v

/-- JS: const wins = { [racerNames[0]]: 0, [racerNames[1]]: 0 }. -/
def objInit (n0 n1 : String) : WinsObj := objSet (objSet [] n0 0) n1 0

/-- JS: wins[name]++. -/
def objIncr (o : WinsObj) (k : String) : WinsObj := objSet o k (objGet o k + 1)

/-- Sum of the values of a JS object (sum of Object.values). -/
def objSum (o : WinsObj) : ℕ := (o.map (·.2)).sum

/-- Per-comparison tally update: wins[racerNames[winIdx]]++ exactly when a
winner was set (the JS loop interleaves this with building the comparison;
the two never interact, so folding afterwards is equivalent). -/
def tallyStep (o : WinsObj) (c : Comparison) : WinsObj :=
  match c.winner with
  | some n => objIncr o n
  | none => o

/-- Overall-winner selection (src/unnamed/part_000, lines 143-151). -/
def overallOf (n0 n1 : String) (wins : WinsObj) (comparisons : List Comparison) :
    Option String :=
  if objGet wins n1 < objGet wins n0 then some n0
  else if objGet wins n0 < objGet wins n1 then some n1
  else if 0 < comparisons.length then some "tie"
  else none

/-- JS groupByCategory: object keyed by category in first-seen order. -/
def insertByCategory (groups : List (Category × List Comparison)) (comp : Comparison) :
    List (Category × List Comparison) :=
  match groups with
  | [] => [(comp.category, [comp])]
  | (cat, cs) :: rest =>
      if cat = comp.category then (cat, cs ++ [comp]) :: rest
      else (cat, cs) :: insertByCategory rest comp

def groupByCategory (comparisons : List Comparison) :
    List (Category × List Comparison) :=
  comparisons.foldl insertByCategory []

/-- Result of buildProfileComparison. -/
structure ProfileComparisonResult where
  comparisons : List Comparison
  wins : WinsObj
  overallWinner : Option String
  byCategory : List (Category × List Comparison)

/-- buildProfileComparison (src/unnamed/part_000, lines 106-159). -/
def buildProfileComparison (racerNames : List String)
    (profileData : List (Option Snapshot)) : ProfileComparisonResult :=
  let n0 := racerNames.getD 0 ""
  let n1 := racerNames.getD 1 ""
  let comparisons := PROFILE_METRICS.filterMap (compareMetric racerNames profileData)
  let wins := comparisons.foldl tallyStep (objInit n0 n1)
  { comparisons := comparisons
    wins := wins
    overallWinner := overallOf n0 n1 wins comparisons
    byCategory := groupByCategory comparisons }

/-!
Clip aligner.  The player script (resolveClip / seekAll in cli/videoplayer.js)
is not under src/; only the integration test src/unnamed/part_001 re-derives
its logic.  The definitions below are therefore modelled from the spec
(§4.4).  A non-finite or absent range is the Option.none case; within a
present range the numbers are rationals.
-/

/-- A clip range in a stream's own time base.  The JS field named end is a
Lean keyword and is called stop here. -/
structure ClipRange where
  start : ℚ
  stop : ℚ
  deriving DecidableEq, Repr

/-- The shared elapsed-time window. -/
structure AlignedClip where
  start : ℚ
  stop : ℚ
  deriving DecidableEq, Repr

/-- Modelled from the spec: the filter step of computeAlignedClip (§4.4) —
the surviving entries have finite start, finite end (here: a present
ClipRange) and end ≥ start. -/
def validClips (clips : List (Option ClipRange)) : List ClipRange :=
  (clips.filterMap id).filter (fun ct => decide (ct.start ≤ ct.stop))

/-- Modelled from the spec: computeAlignedClip (resolveClip of the player
script, absent from src/): if no valid entry remains the result is
undefined; otherwise start is the minimum surviving start and end is
start plus the maximum surviving duration. -/
def resolveClip (clips : List (Option ClipRange)) : Option AlignedClip :=
  match validClips clips with
  | [] => none
  | ct :: rest =>
      some ⟨rest.foldl (fun m x => min m x.start) ct.start,
            rest.foldl (fun m x => min m x.start) ct.start +
              rest.foldl (fun m x => max m (x.stop - x.start)) (ct.stop - ct.start)⟩

/-- Modelled from the spec: mapElapsed (the seekAll mapping of the player
script, absent from src/): for each stream with a valid range,
target = clip.start + elapsed, clamped into the range; streams with no
valid range are excluded (none). -/
def mapElapsed (clips : List (Option ClipRange)) (elapsed : ℚ) : List (Option ℚ) :=
  clips.map (fun oc =>
    match oc with
    | some ct =>
        if ct.start ≤ ct.stop then
          some (max ct.start (min ct.stop (ct.start + elapsed)))
        else none
    | none => none)

/-!
Stability poller.  Two implementations of waitForStability exist in the
repository: src/visual-stability.cjs takes a sample, evaluates stability on
that fresh sample, and only re-evaluates the timeout at the top of the next
iteration; src/unnamed/part_002 evaluates timeout and stability at the top
of the loop, before the next sample.  Both are embedded, under an idealized
time model: sampling is instantaneous, each sleep lasts exactly
pollInterval, so the k-th post-initial sample is taken at time
k * pollInterval (all times in integer milliseconds).  The unbounded JS
while-loop is embedded with a fuel parameter; running out of fuel yields
none, and termination theorems show sufficient fuel exists.
-/

/-- The three counters sampled by waitForStability. -/
structure Counters where
  taskDuration : ℚ
  layoutCount : ℚ
  recalcStyleCount : ℚ
  deriving DecidableEq, Repr

/-- Result of waitForStability. -/
structure StabilityResult where
  stable : Bool
  elapsed : ℕ
  deriving DecidableEq, Repr

/-- Loop of waitForStability in src/visual-stability.cjs (lines 32-58):
check timeout at the top; sleep; sample; on change reset stableSince and
continue; otherwise return stable when the fresh sample closes the
stability window.  State: k samples taken so far (current time
k * pollInterval), previous sample prev, and stableSince. -/
def wfsLoop (getCounters : ℕ → Counters) (stabilityWindow timeout pollInterval : ℕ) :
    ℕ → ℕ → Counters → ℕ → Option StabilityResult
  | fuel, k, prev, stableSince =>
    if timeout ≤ k * pollInterval then some ⟨false, k * pollInterval⟩
    else
      match fuel with
      | 0 => none
      | fuel + 1 =>
          if (getCounters (k + 1)).taskDuration = prev.taskDuration ∧
             (getCounters (k + 1)).layoutCount = prev.layoutCount ∧
             (getCounters (k + 1)).recalcStyleCount = prev.recalcStyleCount then
            if stabilityWindow ≤ (k + 1) * pollInterval - stableSince then
              some ⟨true, (k + 1) * pollInterval⟩
            else
              wfsLoop getCounters stabilityWindow timeout pollInterval fuel (k + 1)
                prev stableSince
          else
            wfsLoop getCounters stabilityWindow timeout pollInterval fuel (k + 1)
              (getCounters (k + 1)) ((k + 1) * pollInterval)

/-- waitForStability of src/visual-stability.cjs: initial sample at time 0,
stableSince = 0, then the loop.  Fuel timeout + 1 is sufficient whenever
pollInterval ≥ 1 (proved below). -/
def waitForStability (getCounters : ℕ → Counters)
    (stabilityWindow timeout pollInterval : ℕ) : Option StabilityResult :=
  wfsLoop getCounters stabilityWindow timeout pollInterval (timeout + 1) 0 (getCounters 0) 0

/-- Loop of waitForStability in src/unnamed/part_002 (lines 32-53): timeout
and stability are both evaluated at the top of the loop, before the next
sample is taken; a change resets stableSince to the fresh sample time. -/
def wfsLoopAlt (getCounters : ℕ → Counters) (stabilityWindow timeout pollInterval : ℕ) :
    ℕ → ℕ → Counters → ℕ → Option StabilityResult
  | fuel, k, prev, stableSince =>
    if timeout ≤ k * pollInterval then some ⟨false, k * pollInterval⟩
    else if stabilityWindow ≤ k * pollInterval - stableSince then
      some ⟨true, k * pollInterval⟩
    else
      match fuel with
      | 0 => none
      | fuel + 1 =>
          if (getCounters (k + 1)).taskDuration = prev.taskDuration ∧
             (getCounters (k + 1)).layoutCount = prev.layoutCount ∧
             (getCounters (k + 1)).recalcStyleCount = prev.recalcStyleCount then
            wfsLoopAlt getCounters stabilityWindow timeout pollInterval fuel (k + 1)
              prev stableSince
          else
            wfsLoopAlt getCounters stabilityWindow timeout pollInterval fuel (k + 1)
              (getCounters (k + 1)) ((k + 1) * pollInterval)

/-- waitForStability of src/unnamed/part_002. -/
def waitForStabilityAlt (getCounters : ℕ → Counters)
    (stabilityWindow timeout pollInterval : ℕ) : Option StabilityResult :=
  wfsLoopAlt getCounters stabilityWindow timeout pollInterval (timeout + 1) 0 (getCounters 0) 0

/-!  Helper lemmas about the comparison engine.  -/

lemma bpc_comparisons (names : List String) (pd : List (Option Snapshot)) :
    (buildProfileComparison names pd).comparisons =
      PROFILE_METRICS.filterMap (compareMetric names pd) := rfl

lemma bpc_wins (names : List String) (pd : List (Option Snapshot)) :
    (buildProfileComparison names pd).wins =
      (buildProfileComparison names pd).comparisons.foldl tallyStep
        (objInit (names.getD 0 "") (names.getD 1 "")) := rfl

lemma bpc_overall (names : List String) (pd : List (Option Snapshot)) :
    (buildProfileComparison names pd).overallWinner =
      overallOf (names.getD 0 "") (names.getD 1 "")
        (buildProfileComparison names pd).wins
        (buildProfileComparison names pd).comparisons := rfl

/-- What compareMetric guarantees about any comparison it emits: it carries
the extracted values, and either the two leading values are present and
unequal — then the winner is the racer at index 0 or 1 holding the smaller
one, diff is the larger minus the smaller, and diffPercent follows the
positive-winner guard — or winner, diff and diffPercent are all null and
the leading values are not two unequal present numbers. -/
lemma compareMetric_spec (names : List String) (pd : List (Option Snapshot))
    (key : MetricKey) (c : Comparison)
    (h : compareMetric names pd key = some c) :
    c.key = key ∧ c.values = extractVals pd key ∧
    ((∃ a b : ℚ, (extractVals pd key).getD 0 none = some a ∧
        (extractVals pd key).getD 1 none = some b ∧ a ≠ b ∧
        c.winner = some (names.getD (if a ≤ b then 0 else 1) "") ∧
        c.diff = some (max a b - min a b) ∧
        c.diffPercent = some (if 0 < min a b then (max a b - min a b) / min a b * 100 else 0))
     ∨ (c.winner = none ∧ c.diff = none ∧ c.diffPercent = none ∧
        ∀ a b : ℚ, (extractVals pd key).getD 0 none = some a →
          (extractVals pd key).getD 1 none = some b → a = b)) := by
  simp only [compareMetric] at h
  split at h
  · exact absurd h (by simp)
  · rename_i va vb hva hvb
    split at h
    · rename_i hab
      rcases Option.some.inj h with rfl
      refine ⟨rfl, rfl, Or.inr ⟨rfl, rfl, rfl, ?_⟩⟩
      intro a b ha hb
      rw [hva] at ha
      rw [hvb] at hb
      rcases Option.some.inj ha with rfl
      rcases Option.some.inj hb with rfl
      exact hab
    · rename_i hab
      rcases Option.some.inj h with rfl
      refine ⟨rfl, rfl, Or.inl ⟨va, vb, hva, hvb, hab, rfl, ?_, ?_⟩⟩
      · show some ((if va ≤ vb then vb else va) - (if va ≤ vb then va else vb)) = _
        rw [max_def, min_def]
      · show some (if 0 < (if va ≤ vb then va else vb) then _ else 0) = _
        rw [max_def, min_def]
  · rename_i x y hno hns
    rcases Option.some.inj h with rfl
    refine ⟨rfl, rfl, Or.inr ⟨rfl, rfl, rfl, ?_⟩⟩
    intro a b ha hb
    exact (hns a b ha hb).elim

/-- The winner rule shared by every emitted comparison: the winner is
non-null exactly when the two leading extracted values are present and
unequal, in which case it is the racer at index 0 or 1 holding the smaller
value; the winner can only ever be null or one of the first two racers. -/
lemma winner_rule (names : List String) (pd : List (Option Snapshot)) (c : Comparison)
    (hc : c ∈ (buildProfileComparison names pd).comparisons) :
    (c.winner ≠ none ↔
      (c.values.getD 0 none ≠ none ∧ c.values.getD 1 none ≠ none ∧
        c.values.getD 0 none ≠ c.values.getD 1 none)) ∧
    (∀ a b : ℚ, c.values.getD 0 none = some a → c.values.getD 1 none = some b → a ≠ b →
      c.winner = some (if a < b then names.getD 0 "" else names.getD 1 "")) ∧
    (c.winner = none ∨ c.winner = some (names.getD 0 "") ∨
      c.winner = some (names.getD 1 "")) := by
  rw [bpc_comparisons] at hc
  rcases List.mem_filterMap.mp hc with ⟨key, -, hkey⟩
  obtain ⟨hk, hvals, hspec⟩ := compareMetric_spec names pd key c hkey
  rw [hvals]
  rcases hspec with ⟨a, b, ha, hb, hab, hw, hd, hp⟩ | ⟨hw, hd, hp, hall⟩
  · refine ⟨?_, ?_, ?_⟩
    · rw [hw, ha, hb]
      constructor
      · intro _
        exact ⟨by simp, by simp, by simpa using hab⟩
      · intro _
        simp
    · intro a' b' ha' hb' hne'
      rw [ha] at ha'
      rw [hb] at hb'
      rcases Option.some.inj ha' with rfl
      rcases Option.some.inj hb' with rfl
      rw [hw]
      by_cases hlt : a < b
      · rw [if_pos (le_of_lt hlt), if_pos hlt]
      · have hle : ¬ a ≤ b := fun hle => hlt (lt_of_le_of_ne hle hne')
        rw [if_neg hle, if_neg hlt]
    · rw [hw]
      by_cases hle : a ≤ b
      · rw [if_pos hle]
        exact Or.inr (Or.inl rfl)
      · rw [if_neg hle]
        exact Or.inr (Or.inr rfl)
  · refine ⟨?_, ?_, Or.inl hw⟩
    · rw [hw]
      simp only [ne_eq, not_true_eq_false, false_iff]
      rintro ⟨h0, h1, hne⟩
      rcases Option.ne_none_iff_exists.mp h0 with ⟨a, ha⟩
      rcases Option.ne_none_iff_exists.mp h1 with ⟨b, hb⟩
      rcases hall a b ha.symm hb.symm with rfl
      exact hne (ha.symm.trans hb)
    · intro a b ha hb hne
      exact ((hne (hall a b ha hb))).elim

/-!  Helper lemmas about the JS wins object.  -/

/-- Incrementing any key raises the value sum by exactly one: an existing
first entry is overwritten with its value plus one, and an absent key is
appended with value 0 + 1. -/
lemma objSum_objIncr : ∀ (o : WinsObj) (k : String),
    objSum (objIncr o k) = objSum o + 1
  | [], k => by simp [objIncr, objGet, objSet, objSum]
  | (k', v) :: rest, k => by
    by_cases hk : k' = k
    · subst hk
      simp only [objIncr, objGet, objSet, objSum, eq_self_iff_true, ite_true,
        List.map_cons, List.sum_cons]
      omega
    · have ih := objSum_objIncr rest k
      simp only [objIncr, objGet, objSet, if_neg hk, objSum, List.map_cons,
        List.sum_cons] at ih ⊢
      omega

/-- Both initial tallies are zero (and so is any other lookup). -/
lemma objGet_objInit (n0 n1 x : String) : objGet (objInit n0 n1) x = 0 := by
  simp only [objInit, objSet]
  by_cases h01 : n0 = n1
  · rw [if_pos h01]
    simp only [objGet]
    split <;> rfl
  · rw [if_neg h01]
    simp only [objGet]
    split
    · rfl
    · split <;> rfl

/-- The initial wins object sums to zero. -/
lemma objSum_objInit (n0 n1 : String) : objSum (objInit n0 n1) = 0 := by
  simp only [objInit, objSet]
  by_cases h01 : n0 = n1
  · rw [if_pos h01]
    rfl
  · rw [if_neg h01]
    rfl

/-- Folding the tally step over comparisons adds one per non-null winner. -/
lemma objSum_foldl_tallyStep : ∀ (l : List Comparison) (o : WinsObj),
    objSum (l.foldl tallyStep o) =
      objSum o + (l.filter (fun c => c.winner.isSome)).length
  | [], o => by simp
  | c :: l, o => by
    rw [List.foldl_cons, objSum_foldl_tallyStep l (tallyStep o c), List.filter_cons]
    rcases hw : c.winner with _ | n
    · simp [tallyStep, hw]
    · simp only [tallyStep, hw, objSum_objIncr, Option.isSome_some, List.length_cons,
        decide_True, if_true]
      omega

/-!  Concrete inputs used by witnesses and counterexamples.  -/

/-- A snapshot carrying only the networkTransferSize metric. -/
def snapNTS (q : ℚ) : Snapshot := fun k =>
  match k with
  | .networkTransferSize => some q
  | _ => none

/-- The single comparison emitted for snapshots 1000 vs 2000 on
networkTransferSize (racers a and b). -/
def cmpScenario : Comparison :=
  { key := .networkTransferSize
    category := .network
    values := [some 1000, some 2000]
    winner := some "a"
    diff := some 1000
    diffPercent := some 100 }

/-- The single comparison emitted for three racers with networkTransferSize
values 5, 3, 1. -/
def cmpThree : Comparison :=
  { key := .networkTransferSize
    category := .network
    values := [some 5, some 3, some 1]
    winner := some "b"
    diff := some 2
    diffPercent := some (200 / 3) }

/-!  Claims about the comparison engine.  -/

/-- C1: for every pair of competitor names and index-aligned snapshots and
every emitted comparison, the winner is non-null exactly when both
extracted values are non-null and unequal, and in that case the winner is
the competitor with the smaller value; on equal non-null values or with
fewer than two values present the winner is null. -/
theorem C1_pair_winner_rule (n0 n1 : String) (p0 p1 : Option Snapshot) (c : Comparison)
    (hc : c ∈ (buildProfileComparison [n0, n1] [p0, p1]).comparisons) :
    (c.winner ≠ none ↔
      (c.values.getD 0 none ≠ none ∧ c.values.getD 1 none ≠ none ∧
        c.values.getD 0 none ≠ c.values.getD 1 none)) ∧
    (∀ a b : ℚ, c.values.getD 0 none = some a → c.values.getD 1 none = some b → a ≠ b →
      c.winner = some (if a < b then n0 else n1)) := by
  obtain ⟨h1, h2, -⟩ := winner_rule [n0, n1] [p0, p1] c hc
  exact ⟨h1, h2⟩

/-- C1 witness: the 1000 vs 2000 networkTransferSize scenario, where the
first competitor wins. -/
theorem C1_witness :
    cmpScenario ∈ (buildProfileComparison ["a", "b"]
        [some (snapNTS 1000), some (snapNTS 2000)]).comparisons ∧
    cmpScenario.winner = some (if (1000 : ℚ) < 2000 then "a" else "b") :=
  ⟨by with_unfolding_all decide,
    (C1_pair_winner_rule "a" "b" (some (snapNTS 1000)) (some (snapNTS 2000)) cmpScenario
      (by with_unfolding_all decide)).2 1000 2000 (by decide) (by decide) (by decide)⟩

/-- C10: every emitted comparison with a non-null winner has a strictly
positive diff, and every emitted comparison with a null winner has null
diff and null diffPercent. -/
theorem C10_diff_invariant (names : List String) (pd : List (Option Snapshot))
    (c : Comparison) (hc : c ∈ (buildProfileComparison names pd).comparisons) :
    (c.winner ≠ none → ∃ d : ℚ, c.diff = some d ∧ 0 < d) ∧
    (c.winner = none → c.diff = none ∧ c.diffPercent = none) := by
  rw [bpc_comparisons] at hc
  rcases List.mem_filterMap.mp hc with ⟨key, -, hkey⟩
  obtain ⟨-, -, hspec⟩ := compareMetric_spec names pd key c hkey
  rcases hspec with ⟨a, b, ha, hb, hab, hw, hd, hp⟩ | ⟨hw, hd, hp, -⟩
  · constructor
    · intro _
      exact ⟨max a b - min a b, hd, sub_pos.mpr (min_lt_max.mpr hab)⟩
    · intro hnone
      rw [hw] at hnone
      exact absurd hnone (by simp)
  · exact ⟨fun hne => absurd hw hne, fun _ => ⟨hd, hp⟩⟩

/-- C10 witness: the 1000 vs 2000 scenario comparison. -/
theorem C10_witness :
    (cmpScenario.winner ≠ none → ∃ d : ℚ, cmpScenario.diff = some d ∧ 0 < d) ∧
    (cmpScenario.winner = none → cmpScenario.diff = none ∧ cmpScenario.diffPercent = none) :=
  C10_diff_invariant ["a", "b"] [some (snapNTS 1000), some (snapNTS 2000)] cmpScenario
    (by with_unfolding_all decide)

/-- C7: the win tallies sum exactly to the count of emitted comparisons
with a non-null winner. -/
theorem C7_tally_sum (names : List String) (pd : List (Option Snapshot)) :
    objSum (buildProfileComparison names pd).wins =
      ((buildProfileComparison names pd).comparisons.filter
        (fun c => c.winner.isSome)).length := by
  rw [bpc_wins, objSum_foldl_tallyStep, objSum_objInit]
  omega

/-- C6 counterexample: with networkTransferSize values -2 vs -1 the winner
is the first competitor with winning value -2 ≠ 0, so the claimed formula
demands diffPercent = diff / (-2) * 100 = -50; the code instead guards on
winning value > 0 and yields diffPercent = 0. -/
theorem C6_counterexample :
    ((buildProfileComparison ["a", "b"]
        [some (snapNTS (-2)), some (snapNTS (-1))]).comparisons.map
          (fun c => (c.winner, c.diff, c.diffPercent)))
      = [(some "a", some 1, some 0)] ∧
    (1 : ℚ) / (-2) * 100 ≠ 0 := by with_unfolding_all decide

/-- C6 amended: for every emitted comparison whose two leading values are
present and unequal, diff is the losing minus the winning value and
diffPercent is diff / winning value * 100 when the winning value is
strictly positive and 0 otherwise (in particular 0 when it is exactly 0). -/
theorem C6_diff_percent_formula (names : List String) (pd : List (Option Snapshot))
    (c : Comparison) (hc : c ∈ (buildProfileComparison names pd).comparisons)
    (a b : ℚ) (ha : c.values.getD 0 none = some a) (hb : c.values.getD 1 none = some b)
    (hne : a ≠ b) :
    c.diff = some (max a b - min a b) ∧
    c.diffPercent = some
      (if 0 < min a b then (max a b - min a b) / min a b * 100 else 0) := by
  rw [bpc_comparisons] at hc
  rcases List.mem_filterMap.mp hc with ⟨key, -, hkey⟩
  obtain ⟨-, hvals, hspec⟩ := compareMetric_spec names pd key c hkey
  rw [hvals] at ha hb
  rcases hspec with ⟨a', b', ha', hb', hab', hw, hd, hp⟩ | ⟨-, -, -, hall⟩
  · rcases Option.some.inj (ha.symm.trans ha') with rfl
    rcases Option.some.inj (hb.symm.trans hb') with rfl
    exact ⟨hd, hp⟩
  · exact (hne (hall a b ha hb)).elim

/-- C6 witness: the 1000 vs 2000 scenario, where diff = 1000 and
diffPercent = 100. -/
theorem C6_witness :
    cmpScenario.diff = some (max (1000 : ℚ) 2000 - min (1000 : ℚ) 2000) ∧
    cmpScenario.diffPercent = some
      (if 0 < min (1000 : ℚ) 2000 then
        (max (1000 : ℚ) 2000 - min (1000 : ℚ) 2000) / min (1000 : ℚ) 2000 * 100
       else 0) :=
  C6_diff_percent_formula ["a", "b"] [some (snapNTS 1000), some (snapNTS 2000)]
    cmpScenario (by with_unfolding_all decide) 1000 2000
    (by decide) (by decide) (by decide)

/-- C8 counterexample: three competitors a, b, c with networkTransferSize
values 5, 3, 1.  The strict minimum among present values is 1, held by the
third competitor c, but the code compares only the first two values and
declares b the winner. -/
theorem C8_counterexample :
    ((buildProfileComparison ["a", "b", "c"]
        [some (snapNTS 5), some (snapNTS 3), some (snapNTS 1)]).comparisons.map
          (fun c => (c.values, c.winner)))
      = [([some 5, some 3, some 1], some "b")] ∧
    (∀ c ∈ (buildProfileComparison ["a", "b", "c"]
        [some (snapNTS 5), some (snapNTS 3), some (snapNTS 1)]).comparisons,
      c.winner ≠ some "c") := by with_unfolding_all decide

/-- C8 amended: with more than two competitors the code still compares only
the first two extracted values: the winner is non-null exactly when those
two are present and unequal, it is then the first or second competitor
according to which of those two values is smaller, and it is never any
competitor beyond the first two; values at indices ≥ 2 never influence it. -/
theorem C8_first_two_rule (names : List String) (pd : List (Option Snapshot))
    (_hn : 2 < names.length) (c : Comparison)
    (hc : c ∈ (buildProfileComparison names pd).comparisons) :
    (c.winner ≠ none ↔
      (c.values.getD 0 none ≠ none ∧ c.values.getD 1 none ≠ none ∧
        c.values.getD 0 none ≠ c.values.getD 1 none)) ∧
    (∀ a b : ℚ, c.values.getD 0 none = some a → c.values.getD 1 none = some b → a ≠ b →
      c.winner = some (if a < b then names.getD 0 "" else names.getD 1 "")) ∧
    (c.winner = none ∨ c.winner = some (names.getD 0 "") ∨
      c.winner = some (names.getD 1 "")) :=
  winner_rule names pd c hc

/-- C5: with distinct first two racer names, neither equal to the sentinel
string tie, the overall winner is the racer with strictly more tallied
wins than the other; it is tie exactly when the two tallies agree and at
least one comparison was emitted, and null exactly when no comparison was
emitted. -/
theorem C5_overall_winner (names : List String) (pd : List (Option Snapshot))
    (h01 : names.getD 0 "" ≠ names.getD 1 "")
    (h0t : names.getD 0 "" ≠ "tie") (h1t : names.getD 1 "" ≠ "tie") :
    ((buildProfileComparison names pd).overallWinner = some (names.getD 0 "") ↔
      objGet (buildProfileComparison names pd).wins (names.getD 1 "") <
        objGet (buildProfileComparison names pd).wins (names.getD 0 "")) ∧
    ((buildProfileComparison names pd).overallWinner = some (names.getD 1 "") ↔
      objGet (buildProfileComparison names pd).wins (names.getD 0 "") <
        objGet (buildProfileComparison names pd).wins (names.getD 1 "")) ∧
    ((buildProfileComparison names pd).overallWinner = some "tie" ↔
      (objGet (buildProfileComparison names pd).wins (names.getD 0 "") =
         objGet (buildProfileComparison names pd).wins (names.getD 1 "") ∧
       (buildProfileComparison names pd).comparisons ≠ [])) ∧
    ((buildProfileComparison names pd).overallWinner = none ↔
      (buildProfileComparison names pd).comparisons = []) := by
  have hwinsEmpty : (buildProfileComparison names pd).comparisons = [] →
      ∀ x, objGet (buildProfileComparison names pd).wins x = 0 := by
    intro he x
    rw [bpc_wins names pd, he, List.foldl_nil]
    exact objGet_objInit _ _ x
  rw [bpc_overall]
  unfold overallOf
  split_ifs with hgt hlt hlen
  · refine ⟨iff_of_true rfl hgt, ?_, ?_, ?_⟩
    · exact iff_of_false (fun h => h01 (Option.some.inj h))
        (fun h => lt_asymm hgt h)
    · exact iff_of_false (fun h => h0t (Option.some.inj h))
        (fun h => absurd hgt (by rw [h.1]; exact lt_irrefl _))
    · refine iff_of_false (by simp) (fun he => ?_)
      rw [hwinsEmpty he, hwinsEmpty he] at hgt
      exact lt_irrefl 0 hgt
  · refine ⟨?_, iff_of_true rfl hlt, ?_, ?_⟩
    · exact iff_of_false (fun h => h01 (Option.some.inj h).symm)
        (fun h => lt_asymm hlt h)
    · exact iff_of_false (fun h => h1t (Option.some.inj h))
        (fun h => absurd hlt (by rw [h.1]; exact lt_irrefl _))
    · refine iff_of_false (by simp) (fun he => ?_)
      rw [hwinsEmpty he, hwinsEmpty he] at hlt
      exact lt_irrefl 0 hlt
  · refine ⟨?_, ?_, ?_, ?_⟩
    · exact iff_of_false (fun h => h0t (Option.some.inj h).symm) hgt
    · exact iff_of_false (fun h => h1t (Option.some.inj h).symm) hlt
    · exact iff_of_true rfl
        ⟨le_antisymm (not_lt.mp hgt) (not_lt.mp hlt), List.length_pos.mp hlen⟩
    · exact iff_of_false (by simp) (fun he => by simp [he] at hlen)
  · refine ⟨?_, ?_, ?_, iff_of_true rfl ?_⟩
    · exact iff_of_false (by simp) hgt
    · exact iff_of_false (by simp) hlt
    · exact iff_of_false (by simp)
        (fun h => h.2 (List.length_eq_zero.mp (Nat.le_zero.mp (not_lt.mp hlen))))
    · exact List.length_eq_zero.mp (Nat.le_zero.mp (not_lt.mp hlen))

/-- C5 witness: the 1000 vs 2000 scenario, where racer a tallies the only
win and is the overall winner. -/
theorem C5_witness :
    ((buildProfileComparison ["a", "b"]
        [some (snapNTS 1000), some (snapNTS 2000)]).overallWinner = some "a" ↔
      objGet (buildProfileComparison ["a", "b"]
          [some (snapNTS 1000), some (snapNTS 2000)]).wins "b" <
        objGet (buildProfileComparison ["a", "b"]
            [some (snapNTS 1000), some (snapNTS 2000)]).wins "a") ∧
    ((buildProfileComparison ["a", "b"]
        [some (snapNTS 1000), some (snapNTS 2000)]).overallWinner = some "b" ↔
      objGet (buildProfileComparison ["a", "b"]
          [some (snapNTS 1000), some (snapNTS 2000)]).wins "a" <
        objGet (buildProfileComparison ["a", "b"]
            [some (snapNTS 1000), some (snapNTS 2000)]).wins "b") ∧
    ((buildProfileComparison ["a", "b"]
        [some (snapNTS 1000), some (snapNTS 2000)]).overallWinner = some "tie" ↔
      (objGet (buildProfileComparison ["a", "b"]
           [some (snapNTS 1000), some (snapNTS 2000)]).wins "a" =
         objGet (buildProfileComparison ["a", "b"]
             [some (snapNTS 1000), some (snapNTS 2000)]).wins "b" ∧
       (buildProfileComparison ["a", "b"]
           [some (snapNTS 1000), some (snapNTS 2000)]).comparisons ≠ [])) ∧
    ((buildProfileComparison ["a", "b"]
        [some (snapNTS 1000), some (snapNTS 2000)]).overallWinner = none ↔
      (buildProfileComparison ["a", "b"]
          [some (snapNTS 1000), some (snapNTS 2000)]).comparisons = []) :=
  C5_overall_winner ["a", "b"] [some (snapNTS 1000), some (snapNTS 2000)]
    (by decide) (by decide) (by decide)

/-!  Fold lemmas used for the clip aligner.  -/

lemma foldl_min_le_init {α : Type} [LinearOrder α] :
    ∀ (l : List α) (a : α), l.foldl min a ≤ a
  | [], a => le_refl a
  | b :: l, a => le_trans (foldl_min_le_init l (min a b)) (min_le_left a b)

lemma foldl_min_le_mem {α : Type} [LinearOrder α] :
    ∀ (l : List α) (a x : α), x ∈ l → l.foldl min a ≤ x
  | b :: l, a, x, hx => by
    rcases List.mem_cons.mp hx with rfl | hx
    · exact le_trans (foldl_min_le_init l (min a x)) (min_le_right a x)
    · exact foldl_min_le_mem l (min a b) x hx

lemma foldl_min_mem {α : Type} [LinearOrder α] :
    ∀ (l : List α) (a : α), l.foldl min a = a ∨ l.foldl min a ∈ l
  | [], _ => Or.inl rfl
  | b :: l, a => by
    rcases foldl_min_mem l (min a b) with h | h
    · rcases min_choice a b with hm | hm
      · exact Or.inl (by rw [List.foldl_cons, h, hm])
      · exact Or.inr (by rw [List.foldl_cons, h, hm]; exact List.mem_cons_self b l)
    · exact Or.inr (List.mem_cons_of_mem b h)

lemma le_foldl_max_init {α : Type} [LinearOrder α] :
    ∀ (l : List α) (a : α), a ≤ l.foldl max a
  | [], a => le_refl a
  | b :: l, a => le_trans (le_max_left a b) (le_foldl_max_init l (max a b))

lemma mem_le_foldl_max {α : Type} [LinearOrder α] :
    ∀ (l : List α) (a x : α), x ∈ l → x ≤ l.foldl max a
  | b :: l, a, x, hx => by
    rcases List.mem_cons.mp hx with rfl | hx
    · exact le_trans (le_max_right a x) (le_foldl_max_init l (max a x))
    · exact mem_le_foldl_max l (max a b) x hx

lemma foldl_max_mem {α : Type} [LinearOrder α] :
    ∀ (l : List α) (a : α), l.foldl max a = a ∨ l.foldl max a ∈ l
  | [], _ => Or.inl rfl
  | b :: l, a => by
    rcases foldl_max_mem l (max a b) with h | h
    · rcases max_choice a b with hm | hm
      · exact Or.inl (by rw [List.foldl_cons, h, hm])
      · exact Or.inr (by rw [List.foldl_cons, h, hm]; exact List.mem_cons_self b l)
    · exact Or.inr (List.mem_cons_of_mem b h)

/-- C3: resolveClip is undefined exactly when no clip survives the
validity filter, and otherwise yields the minimum surviving start together
with that start plus the maximum surviving duration. -/
theorem C3_resolveClip (clips : List (Option ClipRange)) :
    (resolveClip clips = none ↔ validClips clips = []) ∧
    (∀ a : AlignedClip, resolveClip clips = some a →
      (a.start ∈ (validClips clips).map ClipRange.start ∧
       (∀ ct ∈ validClips clips, a.start ≤ ct.start) ∧
       ∃ d, d ∈ (validClips clips).map (fun ct => ct.stop - ct.start) ∧
         (∀ ct ∈ validClips clips, ct.stop - ct.start ≤ d) ∧
         a.stop = a.start + d)) := by
  unfold resolveClip
  cases hv : validClips clips with
  | nil => simp
  | cons ct rest =>
    constructor
    · simp
    · intro a ha
      rcases Option.some.inj ha with rfl
      have hmin : rest.foldl (fun m x => min m x.start) ct.start
          = (rest.map ClipRange.start).foldl min ct.start := by
        rw [List.foldl_map]
      have hmax : rest.foldl (fun m x => max m (x.stop - x.start)) (ct.stop - ct.start)
          = (rest.map (fun x => x.stop - x.start)).foldl max (ct.stop - ct.start) := by
        rw [List.foldl_map]
      refine ⟨?_, ?_, ?_⟩
      · show rest.foldl (fun m x => min m x.start) ct.start ∈ _
        rw [hmin, List.map_cons]
        rcases foldl_min_mem (rest.map ClipRange.start) ct.start with h | h
        · rw [h]; exact List.mem_cons_self _ _
        · exact List.mem_cons_of_mem _ h
      · intro x hx
        show rest.foldl (fun m x => min m x.start) ct.start ≤ x.start
        rw [hmin]
        rcases List.mem_cons.mp hx with rfl | hx
        · exact foldl_min_le_init _ _
        · exact foldl_min_le_mem _ _ _ (List.mem_map_of_mem ClipRange.start hx)
      · refine ⟨rest.foldl (fun m x => max m (x.stop - x.start)) (ct.stop - ct.start),
          ?_, ?_, ?_⟩
        · rw [hmax, List.map_cons]
          rcases foldl_max_mem (rest.map (fun x => x.stop - x.start))
              (ct.stop - ct.start) with h | h
          · rw [h]; exact List.mem_cons_self _ _
          · exact List.mem_cons_of_mem _ h
        · intro x hx
          rw [hmax]
          rcases List.mem_cons.mp hx with rfl | hx
          · exact le_foldl_max_init _ _
          · exact mem_le_foldl_max _ _ _
              (List.mem_map_of_mem (fun x => x.stop - x.start) hx)
        · rfl

set_option maxHeartbeats 2000000 in
/-- C3 witness: the spec scenario, ranges (2.0, 2.5), (1.5, 2.3), (1.8, 3.0)
yield the aligned window (1.5, 2.7), whose start bounds every valid start
from below. -/
theorem C3_witness :
    resolveClip [some ⟨2, 5/2⟩, some ⟨3/2, 23/10⟩, some ⟨9/5, 3⟩]
      = some ⟨3/2, 27/10⟩ ∧
    (∀ ct ∈ validClips [some ⟨2, 5/2⟩, some ⟨3/2, 23/10⟩, some ⟨9/5, 3⟩],
      (3/2 : ℚ) ≤ ct.start) :=
  ⟨by with_unfolding_all decide,
    fun ct hct =>
      ((C3_resolveClip [some ⟨2, 5/2⟩, some ⟨3/2, 23/10⟩, some ⟨9/5, 3⟩]).2
        ⟨3/2, 27/10⟩ (by with_unfolding_all decide)).2.1 ct hct⟩

/-- Positions returned by mapElapsed, index-aligned with the clips. -/
lemma mapElapsed_getD (clips : List (Option ClipRange)) (elapsed : ℚ) :
    ∀ (i : ℕ) (ct : ClipRange), clips.getD i none = some ct → ct.start ≤ ct.stop →
      (mapElapsed clips elapsed).getD i none
        = some (max ct.start (min ct.stop (ct.start + elapsed))) := by
  induction clips with
  | nil => intro i ct hi _; simp [List.getD] at hi
  | cons oc clips ih =>
    intro i ct hi hv
    cases i with
    | zero =>
      rw [List.getD_cons_zero] at hi
      subst hi
      show (mapElapsed (some ct :: clips) elapsed).getD 0 none = _
      rw [mapElapsed, List.map_cons, List.getD_cons_zero]
      simp [hv]
    | succ i =>
      rw [List.getD_cons_succ] at hi
      have := ih i ct hi hv
      rw [mapElapsed, List.map_cons, List.getD_cons_succ]
      exact this

/-- C2: for every elapsed ≥ 0 and every stream with a valid clip range,
the mapped position is the clamp of start + elapsed into the range, the
stream's local elapsed time equals min(elapsed, duration), and a stream
whose duration is exceeded sits exactly at its own clip end. -/
theorem C2_mapElapsed (clips : List (Option ClipRange)) (elapsed : ℚ)
    (he : 0 ≤ elapsed) (i : ℕ) (ct : ClipRange)
    (hi : clips.getD i none = some ct) (hv : ct.start ≤ ct.stop) :
    (mapElapsed clips elapsed).getD i none
        = some (max ct.start (min ct.stop (ct.start + elapsed))) ∧
    max ct.start (min ct.stop (ct.start + elapsed)) - ct.start
        = min elapsed (ct.stop - ct.start) ∧
    (ct.stop - ct.start ≤ elapsed →
      max ct.start (min ct.stop (ct.start + elapsed)) = ct.stop) := by
  have hstart : ct.start ≤ min ct.stop (ct.start + elapsed) :=
    le_min hv (le_add_of_nonneg_right he)
  have hmax : max ct.start (min ct.stop (ct.start + elapsed))
      = min ct.stop (ct.start + elapsed) := max_eq_right hstart
  refine ⟨mapElapsed_getD clips elapsed i ct hi hv, ?_, ?_⟩
  · rw [hmax]
    rw [show min ct.stop (ct.start + elapsed) - ct.start
        = min (ct.stop - ct.start) (ct.start + elapsed - ct.start) from
      (min_sub_sub_right ct.stop (ct.start + elapsed) ct.start).symm]
    rw [add_sub_cancel_left, min_comm]
  · intro hd
    rw [hmax, min_eq_left (by linarith)]

/-- C2 witness: the spec scenario at elapsed = 1.2 for the stream with
range (1.5, 2.3): the position is the clamp, the local elapsed time is
min(1.2, 0.8) = 0.8, and since 0.8 ≤ 1.2 the stream sits at its end 2.3. -/
theorem C2_witness :
    (mapElapsed [some ⟨2, 5/2⟩, some ⟨3/2, 23/10⟩, some ⟨9/5, 3⟩] (6/5)).getD 1 none
        = some (max (3/2 : ℚ) (min (23/10) (3/2 + 6/5))) ∧
    max (3/2 : ℚ) (min (23/10) (3/2 + 6/5)) - 3/2 = min (6/5) (23/10 - 3/2) ∧
    ((23/10 : ℚ) - 3/2 ≤ 6/5 →
      max (3/2 : ℚ) (min (23/10) (3/2 + 6/5)) = 23/10) :=
  C2_mapElapsed [some ⟨2, 5/2⟩, some ⟨3/2, 23/10⟩, some ⟨9/5, 3⟩] (6/5)
    (by norm_num) 1 ⟨3/2, 23/10⟩ (by with_unfolding_all decide) (by norm_num)

/-!  Stability-poller lemmas and claims.  -/

/-- With enough fuel relative to the timeout, the visual-stability.cjs loop
always returns, and whenever it is entered with the current time below
timeout + pollInterval, the returned elapsed value respects that bound. -/
lemma wfsLoop_total (g : ℕ → Counters) (window timeout poll : ℕ) :
    ∀ (fuel : ℕ), ∀ (k : ℕ) (prev : Counters) (ss : ℕ),
      timeout ≤ (k + fuel) * poll →
      k * poll ≤ timeout + poll →
      ∃ r : StabilityResult,
        wfsLoop g window timeout poll fuel k prev ss = some r ∧
        r.elapsed ≤ timeout + poll := by
  intro fuel
  induction fuel with
  | zero =>
    intro k prev ss hfuel hk
    rw [wfsLoop, if_pos (by simpa using hfuel)]
    exact ⟨⟨false, k * poll⟩, rfl, hk⟩
  | succ fuel ih =>
    intro k prev ss hfuel hk
    rw [wfsLoop]
    by_cases htm : timeout ≤ k * poll
    · rw [if_pos htm]
      exact ⟨⟨false, k * poll⟩, rfl, hk⟩
    · rw [if_neg htm]
      have hklt : k * poll < timeout := lt_of_not_le htm
      have hsm : (k + 1) * poll = k * poll + poll := Nat.succ_mul k poll
      have hk' : (k + 1) * poll ≤ timeout + poll := by omega
      have hfuel' : timeout ≤ (k + 1 + fuel) * poll := by
        have harith : k + 1 + fuel = k + (fuel + 1) := by omega
        rw [harith]
        exact hfuel
      show ∃ r, (if (g (k + 1)).taskDuration = prev.taskDuration ∧
          (g (k + 1)).layoutCount = prev.layoutCount ∧
          (g (k + 1)).recalcStyleCount = prev.recalcStyleCount then
          if window ≤ (k + 1) * poll - ss then some ⟨true, (k + 1) * poll⟩
          else wfsLoop g window timeout poll fuel (k + 1) prev ss
        else wfsLoop g window timeout poll fuel (k + 1) (g (k + 1)) ((k + 1) * poll))
          = some r ∧ r.elapsed ≤ timeout + poll
      by_cases hc : (g (k + 1)).taskDuration = prev.taskDuration ∧
          (g (k + 1)).layoutCount = prev.layoutCount ∧
          (g (k + 1)).recalcStyleCount = prev.recalcStyleCount
      · rw [if_pos hc]
        by_cases hw : window ≤ (k + 1) * poll - ss
        · rw [if_pos hw]
          exact ⟨⟨true, (k + 1) * poll⟩, rfl, hk'⟩
        · rw [if_neg hw]
          exact ih (k + 1) prev ss hfuel' hk'
      · rw [if_neg hc]
        exact ih (k + 1) (g (k + 1)) ((k + 1) * poll) hfuel' hk'

/-- C9: for every sample source and positive poll interval,
waitForStability terminates with some outcome whose elapsed value is at
most timeout + pollInterval (idealized time model: each sleep lasts
exactly pollInterval and sampling is instantaneous). -/
theorem C9_terminates (g : ℕ → Counters) (window timeout poll : ℕ)
    (hpoll : 1 ≤ poll) :
    ∃ r : StabilityResult,
      waitForStability g window timeout poll = some r ∧
      r.elapsed ≤ timeout + poll := by
  unfold waitForStability
  refine wfsLoop_total g window timeout poll (timeout + 1) 0 (g 0) 0 ?_ (by simp)
  calc timeout ≤ timeout + 1 := Nat.le_succ timeout
    _ = (timeout + 1) * 1 := (Nat.mul_one _).symm
    _ ≤ (0 + (timeout + 1)) * poll := by
        rw [Nat.zero_add]
        exact Nat.mul_le_mul_left _ hpoll

/-- C9 witness: constant counters with window 2, timeout 5, poll 1. -/
theorem C9_witness :
    (1 : ℕ) ≤ 1 ∧
    ∃ r : StabilityResult,
      waitForStability (fun _ => ⟨0, 0, 0⟩) 2 5 1 = some r ∧
      r.elapsed ≤ 5 + 1 :=
  ⟨le_refl 1, C9_terminates (fun _ => ⟨0, 0, 0⟩) 2 5 1 (le_refl 1)⟩

/-- C4 counterexample: constant counters, stabilityWindow = 2, timeout = 2,
pollInterval = 1.  The fresh sample at time 2 equals the previous sample
and closes the stability window (2 − 0 ≥ 2), so the claim demands
{stable: true} for that sample; the implementation in src/unnamed/part_002
evaluates the timeout at the top of the next iteration before that
stability evaluation and returns {stable: false, elapsed: 2}, while the
implementation in src/visual-stability.cjs returns {stable: true,
elapsed: 2} as the claim states. -/
theorem C4_counterexample :
    waitForStabilityAlt (fun _ => ⟨0, 0, 0⟩) 2 2 1 = some ⟨false, 2⟩ ∧
    waitForStability (fun _ => ⟨0, 0, 0⟩) 2 2 1 = some ⟨true, 2⟩ := by
  with_unfolding_all decide

/-- C4 amended (holds for src/visual-stability.cjs): whenever the loop has
passed its timeout check (k·poll < timeout) and the freshly taken sample at
t = (k+1)·poll equals the previous sample on all three counters with
t − stableSince ≥ stabilityWindow, the loop returns {stable: true} for that
sample, even when t − start ≥ timeout also holds at that moment. -/
theorem C4_stability_not_preempted (g : ℕ → Counters)
    (window timeout poll fuel k : ℕ) (prev : Counters) (ss : ℕ)
    (hrun : k * poll < timeout)
    (h1 : (g (k + 1)).taskDuration = prev.taskDuration)
    (h2 : (g (k + 1)).layoutCount = prev.layoutCount)
    (h3 : (g (k + 1)).recalcStyleCount = prev.recalcStyleCount)
    (hwin : window ≤ (k + 1) * poll - ss)
    (_htm : timeout ≤ (k + 1) * poll) :
    wfsLoop g window timeout poll (fuel + 1) k prev ss
      = some ⟨true, (k + 1) * poll⟩ := by
  rw [wfsLoop, if_neg (not_le.mpr hrun)]
  show (if (g (k + 1)).taskDuration = prev.taskDuration ∧
      (g (k + 1)).layoutCount = prev.layoutCount ∧
      (g (k + 1)).recalcStyleCount = prev.recalcStyleCount then
      if window ≤ (k + 1) * poll - ss then some ⟨true, (k + 1) * poll⟩
      else wfsLoop g window timeout poll fuel (k + 1) prev ss
    else wfsLoop g window timeout poll fuel (k + 1) (g (k + 1)) ((k + 1) * poll))
      = some ⟨true, (k + 1) * poll⟩
  rw [if_pos ⟨h1, h2, h3⟩, if_pos hwin]

/-- C4 witness: constant counters, window 2, timeout 2, poll 1, at the
state reached after one changeless poll: the sample at time 2 achieves
stability while 2 ≥ timeout also holds, and stable is returned. -/
theorem C4_witness :
    (1 : ℕ) * 1 < 2 ∧
    wfsLoop (fun _ => ⟨0, 0, 0⟩) 2 2 1 (5 + 1) 1 ⟨0, 0, 0⟩ 0
      = some ⟨true, (1 + 1) * 1⟩ :=
  ⟨by decide,
    C4_stability_not_preempted (fun _ => ⟨0, 0, 0⟩) 2 2 1 5 1 ⟨0, 0, 0⟩ 0
      (by decide) (by decide) (by decide) (by decide) (by decide) (by decide)⟩

/-- C8 witness: the three-competitor 5, 3, 1 scenario, where the second
competitor wins on the first two values. -/
theorem C8_witness :
    2 < (["a", "b", "c"] : List String).length ∧
    cmpThree.winner = some (if (5 : ℚ) < 3 then "a" else "b") :=
  ⟨by decide,
    (C8_first_two_rule ["a", "b", "c"]
        [some (snapNTS 5), some (snapNTS 3), some (snapNTS 1)] (by decide) cmpThree
        (by with_unfolding_all decide)).2.1 5 3 (by decide) (by decide) (by decide)⟩

end Race
